import Mathlib

/-!
Verification of the news-aggregation pipeline of an Android 17 news
aggregator.  The definitions are shallow embeddings of the Python source
(src/scraper.py and src/translator.py); the theorems settle the
specification claims about merging, stage-2 filtering, platform
classification, date normalization, store loading, result ordering,
translation and enrichment.
-/

namespace Aggregator

/-- One news or leaker record: the dict produced by the fetchers in
src/scraper.py (keys id, title, summary, url, source, source_icon, date,
type, platform, image, title_translated, summary_translated).  Optional
keys are `Option String`; the platform key, absent on leaker records, is
modelled as `""` (`item.get('platform')` then matches no platform). -/
structure NewsItem where
  id : String
  title : String
  summary : String
  url : String
  source : String
  source_icon : String
  date : String
  type : String
  platform : String
  image : Option String
  title_translated : Option String
  summary_translated : Option String
  deriving DecidableEq, Repr

/-! ## Dedup & merge store (scrape_all, src/scraper.py lines 706-711)

The Python dict `existing_news` is modelled as an insertion-ordered
association list; dict insertion appends a fresh key at the end. -/

/-- Python dict lookup `existing_news[k]` on the insertion-ordered list. -/
def lookupId : List (String × NewsItem) → String → Option NewsItem
  | [], _ => none
  | p :: h, k => if p.1 = k then some p.2 else lookupId h k

/-- Python key-membership test `k in existing_news`. -/
def hasKey (h : List (String × NewsItem)) (k : String) : Bool :=
  (lookupId h k).isSome

/-- One iteration of the merge loop: insert the candidate only if its id is
absent (`if item['id'] not in existing_news: existing_news[item['id']] = item`). -/
def mergeStep (h : List (String × NewsItem)) (item : NewsItem) : List (String × NewsItem) :=
  if hasKey h item.id then h else h ++ [(item.id, item)]

/-- The merge loop `for item in new_news:` of scrape_all. -/
def merge (h : List (String × NewsItem)) (c : List NewsItem) : List (String × NewsItem) :=
  c.foldl mergeStep h

theorem lookupId_append (h t : List (String × NewsItem)) (k : String) :
    lookupId (h ++ t) k = match lookupId h k with
      | some v => some v
      | none => lookupId t k := by
  induction h with
  | nil => simp [lookupId]
  | cons p h ih =>
    by_cases hp : p.1 = k
    · simp [lookupId, hp]
    · simp [lookupId, hp, ih]

theorem hasKey_append (a b : List (String × NewsItem)) (k : String) :
    hasKey (a ++ b) k = (hasKey a k || hasKey b k) := by
  unfold hasKey
  rw [lookupId_append]
  cases lookupId a k <;> simp

/-- Merge only ever appends records whose key was absent from the history. -/
theorem merge_eq_append (c : List NewsItem) (h : List (String × NewsItem)) :
    ∃ t, merge h c = h ++ t ∧ ∀ p ∈ t, hasKey h p.1 = false := by
  induction c generalizing h with
  | nil => exact ⟨[], by simp [merge], by simp⟩
  | cons i c ih =>
    have hm : merge h (i :: c) = merge (mergeStep h i) c := rfl
    by_cases hk : hasKey h i.id
    · have hs : mergeStep h i = h := by simp [mergeStep, hk]
      rw [hm, hs]
      exact ih h
    · have hs : mergeStep h i = h ++ [(i.id, i)] := by simp [mergeStep, hk]
      obtain ⟨t, ht, hfresh⟩ := ih (h ++ [(i.id, i)])
      refine ⟨(i.id, i) :: t, ?_, ?_⟩
      · rw [hm, hs, ht, List.append_assoc]
        rfl
      · intro p hp
        rcases List.mem_cons.mp hp with rfl | hp
        · simpa using hk
        · have := hfresh p hp
          rw [hasKey_append] at this
          exact (Bool.or_eq_false_iff.mp this).1

/-- C1: merge preserves history, first-write-wins: an id already present in
the history keeps its stored record (hence every stored field value)
unchanged even if a candidate carries the same id with different fields,
the id is never removed, and the merged history is at least as large as
the input history. -/
theorem c1_merge_first_write_wins (h : List (String × NewsItem)) (c : List NewsItem)
    (x : String) (hx : hasKey h x = true) :
    lookupId (merge h c) x = lookupId h x
    ∧ hasKey (merge h c) x = true
    ∧ h.length ≤ (merge h c).length := by
  obtain ⟨t, ht, -⟩ := merge_eq_append c h
  obtain ⟨v, hv⟩ := Option.isSome_iff_exists.mp hx
  refine ⟨?_, ?_, ?_⟩
  · rw [ht, lookupId_append, hv]
  · rw [ht, hasKey_append, hx]
    rfl
  · rw [ht, List.length_append]
    exact Nat.le_add_right _ _

def wItemOld : NewsItem :=
  ⟨"idA", "old title", "old summary", "https://a", "S", "S", "2026-01-01",
   "news", "android", none, none, none⟩

def wItemNew : NewsItem :=
  ⟨"idA", "new title", "new summary", "https://a", "S", "S", "2026-01-02",
   "news", "android", none, none, none⟩

/-- Witness for C1 at a concrete one-record history and a candidate that
shares the id but differs in title, summary and date. -/
theorem c1_witness :
    lookupId (merge [("idA", wItemOld)] [wItemNew]) "idA" = lookupId [("idA", wItemOld)] "idA"
    ∧ hasKey (merge [("idA", wItemOld)] [wItemNew]) "idA" = true
    ∧ [("idA", wItemOld)].length ≤ (merge [("idA", wItemOld)] [wItemNew]).length :=
  c1_merge_first_write_wins [("idA", wItemOld)] [wItemNew] "idA" (by decide)

theorem hasKey_merge_mono (c : List NewsItem) (h : List (String × NewsItem)) (k : String)
    (hk : hasKey h k = true) : hasKey (merge h c) k = true := by
  obtain ⟨t, ht, -⟩ := merge_eq_append c h
  rw [ht, hasKey_append, hk]
  rfl

theorem hasKey_mergeStep_self (h : List (String × NewsItem)) (i : NewsItem) :
    hasKey (mergeStep h i) i.id = true := by
  by_cases hk : hasKey h i.id
  · simp [mergeStep, hk]
  · simp only [mergeStep, if_neg hk, hasKey_append]
    simp [hasKey, lookupId]

/-- After a merge, every candidate id is present in the result. -/
theorem mem_hasKey_merge (c : List NewsItem) (h : List (String × NewsItem)) :
    ∀ i ∈ c, hasKey (merge h c) i.id = true := by
  induction c generalizing h with
  | nil => intro i hi; cases hi
  | cons a c ih =>
    intro i hi
    have hm : merge h (a :: c) = merge (mergeStep h a) c := rfl
    rcases List.mem_cons.mp hi with rfl | hi
    · rw [hm]
      exact hasKey_merge_mono c (mergeStep h i) i.id (hasKey_mergeStep_self h i)
    · rw [hm]
      exact ih (mergeStep h a) i hi

/-- Merging candidates whose ids are all already present changes nothing. -/
theorem merge_nop (c : List NewsItem) (h : List (String × NewsItem))
    (hall : ∀ i ∈ c, hasKey h i.id = true) : merge h c = h := by
  induction c with
  | nil => rfl
  | cons a c ih =>
    have ha : hasKey h a.id = true := hall a (List.mem_cons_self a c)
    have hs : mergeStep h a = h := by simp [mergeStep, ha]
    have hm : merge h (a :: c) = merge (mergeStep h a) c := rfl
    rw [hm, hs]
    exact ih fun i hi => hall i (List.mem_cons_of_mem a hi)

/-- C2: merge is idempotent: merging the same candidate list a second time
produces no change. -/
theorem c2_merge_idempotent (h : List (String × NewsItem)) (c : List NewsItem) :
    merge (merge h c) c = merge h c :=
  merge_nop c (merge h c) (mem_hasKey_merge c h)

/-! ## Keyword machinery (str.lower and the `in` substring test) -/

/-- Python `str.lower()` (the keyword lists are ASCII, so the per-character
ASCII lowering is exact on every text they are compared against). -/
def pyLower (s : String) : String :=
  String.mk (s.data.map Char.toLower)

/-- needle is a prefix of hay. -/
def prefList : List Char → List Char → Bool
  | [], _ => true
  | _ :: _, [] => false
  | c :: cs, d :: ds => c == d && prefList cs ds

/-- needle occurs somewhere in hay. -/
def subList (needle : List Char) : List Char → Bool
  | [] => needle.isEmpty
  | c :: t => prefList needle (c :: t) || subList needle t

/-- Python `needle in hay` on strings. -/
def containsSub (hay needle : String) : Bool :=
  subList needle.data hay.data

/-- Python `any(kw in text for kw in kws)`. -/
def anyKeyword (kws : List String) (text : String) : Bool :=
  kws.any fun kw => containsSub text kw

/-! ## Platform classifier (detect_platform, src/scraper.py lines 146-157) -/

/-- ANDROID_KEYWORDS of src/scraper.py. -/
def ANDROID_KEYWORDS : List String :=
  ["android 17", "android17",
   "android baklava",
   "android 16 qpr", "android16 qpr", "qpr", "quarterly platform release",
   "google i/o 2025", "google i/o 2026",
   "android beta", "android preview", "android developer preview",
   "material you", "gemini android",
   "tensor g5", "tensor g6"]

/-- IOS_KEYWORDS of src/scraper.py. -/
def IOS_KEYWORDS : List String :=
  ["ios 27", "ios27", "ios 26", "ios26",
   "ios beta", "ios preview", "ios developer"]

/-- detect_platform of src/scraper.py. -/
def detect_platform (text : String) : String :=
  let text_lower := pyLower text
  let matchesAndroid := anyKeyword ANDROID_KEYWORDS text_lower
  let matchesIos := anyKeyword IOS_KEYWORDS text_lower
  if matchesAndroid && matchesIos then "android"
  else if matchesIos then "ios"
  else "android"

/-- The classifier only ever returns android or ios. -/
theorem detect_platform_total (text : String) :
    detect_platform text = "android" ∨ detect_platform text = "ios" := by
  by_cases ha : anyKeyword ANDROID_KEYWORDS (pyLower text) = true
    <;> by_cases hi : anyKeyword IOS_KEYWORDS (pyLower text) = true
    <;> simp [detect_platform, ha, hi]

/-- C7: the classifier is total into android/ios with a fixed tie-break:
any text matching an Android keyword (even if it also matches iOS keywords)
classifies as android, and text matching only iOS keywords classifies as
ios. -/
theorem c7_classifier_tie_break (text : String) :
    (anyKeyword ANDROID_KEYWORDS (pyLower text) = true →
      detect_platform text = "android")
    ∧ (anyKeyword ANDROID_KEYWORDS (pyLower text) = false →
       anyKeyword IOS_KEYWORDS (pyLower text) = true →
      detect_platform text = "ios")
    ∧ (detect_platform text = "android" ∨ detect_platform text = "ios") := by
  refine ⟨?_, ?_, ?_⟩
  · intro ha
    by_cases hi : anyKeyword IOS_KEYWORDS (pyLower text) = true
    · simp [detect_platform, ha, hi]
    · simp [detect_platform, ha, hi]
  · intro ha hi
    simp [detect_platform, ha, hi]
  · exact detect_platform_total text

/-- Witness for C7: a text matching both keyword sets classifies as android,
a text matching only the iOS set classifies as ios. -/
theorem c7_witness :
    detect_platform "Android 17 beats iOS 27" = "android"
    ∧ detect_platform "iOS 27 rumors" = "ios" :=
  ⟨(c7_classifier_tie_break "Android 17 beats iOS 27").1 (by decide),
   (c7_classifier_tie_break "iOS 27 rumors").2.1 (by decide) (by decide)⟩

/-- C10: on text matching neither keyword set the classifier still returns
android; it is total into android/ios and never leaves the platform
unassigned. -/
theorem c10_classifier_default (text : String) :
    (anyKeyword ANDROID_KEYWORDS (pyLower text) = false →
     anyKeyword IOS_KEYWORDS (pyLower text) = false →
      detect_platform text = "android")
    ∧ (detect_platform text = "android" ∨ detect_platform text = "ios") := by
  refine ⟨fun ha hi => by simp [detect_platform, ha, hi],
    detect_platform_total text⟩

/-- Witness for C10: a text with no platform keyword at all. -/
theorem c10_witness : detect_platform "hello world" = "android" :=
  (c10_classifier_default "hello world").1 (by decide) (by decide)

/-! ## Stage-2 retention filters (scrape_all, src/scraper.py lines 731-789) -/

/-- keep_keywords of the Android stage-2 pass (line 734). -/
def keep_keywords : List String :=
  ["android 17", "android17", "android baklava", "android 16 qpr", "qpr",
   "quarterly platform release"]

/-- hardware_keywords of the Android stage-2 pass (line 736). -/
def hardware_keywords : List String :=
  ["pixel 10", "pixel 11", "pixel 10a", "pixel10", "pixel11"]

/-- ios_keep_keywords of the iOS stage-2 pass (line 764). -/
def ios_keep_keywords : List String :=
  ["ios 27", "ios27", "ios 26", "ios26", "ios beta", "ios preview",
   "ios developer"]

/-- ios_hardware_keywords of the iOS stage-2 pass (line 766). -/
def ios_hardware_keywords : List String :=
  ["iphone 17", "iphone17", "iphone 18"]

/-- `(item.get('title', '') + ' ' + item.get('summary', '')).lower()`. -/
def itemText (it : NewsItem) : String :=
  pyLower (it.title ++ " " ++ it.summary)

/-- Retention decision of the Android stage-2 loop: android news is kept
exactly when a version keyword occurs (the `elif has_hardware` and `else`
branches both drop the item, differing only in the log line); every other
item takes the `else` branch and is kept. -/
def androidKeep (it : NewsItem) : Bool :=
  if it.type == "news" && it.platform == "android" then
    anyKeyword keep_keywords (itemText it)
  else true

/-- Retention decision of the iOS stage-2 loop, same shape. -/
def iosKeep (it : NewsItem) : Bool :=
  if it.type == "news" && it.platform == "ios" then
    anyKeyword ios_keep_keywords (itemText it)
  else true

/-- The accumulate-into-a-fresh-list loop both stage-2 passes use. -/
def stage2Loop (keep : NewsItem → Bool) (items : List NewsItem) : List NewsItem :=
  items.foldl (fun acc it => if keep it then acc ++ [it] else acc) []

/-- Android stage-2 pass (lines 738-759). -/
def androidStage2 (items : List NewsItem) : List NewsItem :=
  stage2Loop androidKeep items

/-- iOS stage-2 pass (lines 768-789). -/
def iosStage2 (items : List NewsItem) : List NewsItem :=
  stage2Loop iosKeep items

theorem stage2Loop_go (keep : NewsItem → Bool) (items : List NewsItem) :
    ∀ acc : List NewsItem,
      items.foldl (fun acc it => if keep it then acc ++ [it] else acc) acc
        = acc ++ items.filter keep := by
  induction items with
  | nil => intro acc; simp
  | cons a items ih =>
    intro acc
    by_cases ha : keep a
    · simp [List.filter_cons, ha, ih]
    · simp [List.filter_cons, ha, ih]

/-- The stage-2 loop is an order-preserving filter. -/
theorem stage2Loop_eq_filter (keep : NewsItem → Bool) (items : List NewsItem) :
    stage2Loop keep items = items.filter keep := by
  have := stage2Loop_go keep items []
  simpa [stage2Loop] using this

/-- The item of the C3 counterexample: an android news item whose text
contains the spec-level version words "beta" and "developer preview" but
none of the keywords the code actually retains on. -/
def c3Item : NewsItem :=
  ⟨"c3", "Android Beta 2 developer preview hands-on", "", "https://c3", "S",
   "S", "2026-01-01", "news", "android", none, none, none⟩

/-- C3 counterexample: the spec's version set is stated to contain "beta"
and "developer preview", yet this android news item containing both words
is dropped by the android stage-2 pass, so stage-2 retention is not
keyword membership in that spec-described set. -/
theorem c3_counterexample :
    containsSub (itemText c3Item) "beta" = true
    ∧ containsSub (itemText c3Item) "developer preview" = true
    ∧ c3Item.type = "news" ∧ c3Item.platform = "android"
    ∧ androidStage2 [c3Item] = [] := by
  refine ⟨by decide, by decide, rfl, rfl, ?_⟩
  rw [androidStage2, stage2Loop_eq_filter]
  decide

/-- C3 amended: stage-2 retention is a pure function of membership of the
code's own version-keyword lists: each pass is an order-preserving filter;
an android (resp. ios) news item is kept exactly when its lowered
title+summary text contains one of keep_keywords
(resp. ios_keep_keywords) - so an item with only hardware keywords, or
with neither kind, is dropped - and every leaker item or item of the other
platform passes through unchanged (its keep-decision is true). -/
theorem c3_stage2_retention (items : List NewsItem) (it : NewsItem) :
    androidStage2 items = items.filter androidKeep
    ∧ iosStage2 items = items.filter iosKeep
    ∧ androidKeep it
        = (!(it.type == "news" && it.platform == "android")
           || anyKeyword keep_keywords (itemText it))
    ∧ iosKeep it
        = (!(it.type == "news" && it.platform == "ios")
           || anyKeyword ios_keep_keywords (itemText it))
    ∧ (it ∈ androidStage2 items ↔ it ∈ items ∧ androidKeep it = true)
    ∧ (it ∈ iosStage2 items ↔ it ∈ items ∧ iosKeep it = true) := by
  refine ⟨stage2Loop_eq_filter _ _, stage2Loop_eq_filter _ _, ?_, ?_, ?_, ?_⟩
  · by_cases hc : (it.type == "news" && it.platform == "android") = true
    · simp [androidKeep, hc]
    · simp [androidKeep, hc]
  · by_cases hc : (it.type == "news" && it.platform == "ios") = true
    · simp [iosKeep, hc]
    · simp [iosKeep, hc]
  · rw [androidStage2, stage2Loop_eq_filter]
    exact List.mem_filter
  · rw [iosStage2, stage2Loop_eq_filter]
    exact List.mem_filter

/-! ## Translation collaborator (src/translator.py)

The HTTP call of translate_text is the external effect; it is a parameter.
`fail` models a raised exception or timeout; `resp status body` models a
returned response, where `body = none` models a response whose JSON
decode or shape access raises inside the try block (also caught), and
`body = some segs` models `result[0]` as the list of segments whose first
component is `item[0]` (a string or None). -/

inductive HttpResult where
  | fail : HttpResult
  | resp (status : Nat) (body : Option (List (Option String))) : HttpResult
  deriving DecidableEq, Repr

/-- The network: one HTTP GET per (text, target_lang) pair. -/
def Net : Type := String → String → HttpResult

/-- Python `str.strip()` whitespace set (ASCII part). -/
def pyIsSpaceChar (c : Char) : Bool :=
  c == ' ' || c == '\t' || c == '\n' || c == '\r' || c == '\x0b' || c == '\x0c'

/-- Python `str.strip()`. -/
def pyStrip (s : String) : String :=
  String.mk (((s.data.dropWhile pyIsSpaceChar).reverse.dropWhile pyIsSpaceChar).reverse)

/-- `''.join([item[0] for item in result[0] if item[0]])`. -/
def joinTruthy (segs : List (Option String)) : String :=
  String.join (segs.filterMap fun o =>
    match o with
    | some s => if s == "" then none else some s
    | none => none)

/-- translate_text of src/translator.py lines 9-36. -/
def translate_text (net : Net) (text : String) (target_lang : String) : String :=
  if pyStrip text == "" then text
  else
    match net text target_lang with
    | .fail => text
    | .resp status body =>
      if status == 200 then
        match body with
        | some segs => joinTruthy segs
        | none => text
      else text

/-- translate_news_item of src/translator.py lines 39-52. -/
def translate_news_item (net : Net) (item : NewsItem) (target_lang : String) : NewsItem :=
  if target_lang == "zh-CN" then
    { item with
      title_translated := some (translate_text net item.title "zh-CN"),
      summary_translated := some (translate_text net item.summary "zh-CN") }
  else
    { item with
      title_translated := some item.title,
      summary_translated := some item.summary }

/-- translate_news_batch of src/translator.py lines 55-60 (the loop appends
one translated copy per input item). -/
def translate_news_batch (net : Net) (items : List NewsItem) (target_lang : String) :
    List NewsItem :=
  items.foldl (fun acc it => acc ++ [translate_news_item net it target_lang]) []

theorem translate_batch_go (net : Net) (target_lang : String) (items : List NewsItem) :
    ∀ acc : List NewsItem,
      items.foldl (fun acc it => acc ++ [translate_news_item net it target_lang]) acc
        = acc ++ items.map (fun it => translate_news_item net it target_lang) := by
  induction items with
  | nil => intro acc; simp
  | cons a items ih => intro acc; simp [ih]

theorem translate_batch_eq_map (net : Net) (items : List NewsItem) (target_lang : String) :
    translate_news_batch net items target_lang
      = items.map (fun it => translate_news_item net it target_lang) := by
  have := translate_batch_go net target_lang items []
  simpa [translate_news_batch] using this

/-- C8: the translation collaborator degrades gracefully: whenever the
network call fails (exception/timeout) or returns a non-200 status,
translate_text returns the input text unchanged; and translate_news_batch
maps each input item to its translated copy, so it always returns a list
of the same length as its input. -/
theorem c8_translator_degrades (net : Net) (text target_lang : String)
    (items : List NewsItem)
    (hfail : net text target_lang = HttpResult.fail
      ∨ ∃ status body, net text target_lang = HttpResult.resp status body ∧ status ≠ 200) :
    translate_text net text target_lang = text
    ∧ translate_news_batch net items target_lang
        = items.map (fun it => translate_news_item net it target_lang)
    ∧ (translate_news_batch net items target_lang).length = items.length := by
  refine ⟨?_, translate_batch_eq_map net items target_lang, ?_⟩
  · by_cases hb : pyStrip text == ""
    · simp [translate_text, hb]
    · rcases hfail with hf | ⟨status, body, hr, hs⟩
      · simp [translate_text, hb, hf]
      · have hs2 : (status == 200) = false := by
          simpa using hs
        simp [translate_text, hb, hr, hs2]
  · rw [translate_batch_eq_map]
    simp

/-- Witness for C8 with a failing network and a one-item batch. -/
theorem c8_witness :
    translate_text (fun _ _ => HttpResult.fail) "Android 17 news" "zh-CN" = "Android 17 news"
    ∧ translate_news_batch (fun _ _ => HttpResult.fail) [wItemOld] "zh-CN"
        = [wItemOld].map (fun it => translate_news_item (fun _ _ => HttpResult.fail) it "zh-CN")
    ∧ (translate_news_batch (fun _ _ => HttpResult.fail) [wItemOld] "zh-CN").length
        = [wItemOld].length :=
  c8_translator_degrades (fun _ _ => HttpResult.fail) "Android 17 news" "zh-CN" [wItemOld]
    (Or.inl rfl)

/-! ## Image backfill and enrichment hook (scrape_all, lines 722-728 and
797-809) -/

/-- Python truthiness of an optional string field (missing key or None or
empty string are falsy). -/
def truthyOpt : Option String → Bool
  | none => false
  | some s => !(s == "")

/-- The article-page fetch of fetch_og_image: the external effect, a
parameter; `none` models a failed fetch or a page without a usable meta
tag. -/
def FetchImage : Type := String → Option String

/-- One iteration of the backfill loop (lines 724-728): fetch and write an
image only when the stored image is falsy and the url is truthy, and only
if the fetched value is truthy. -/
def backfillItem (fetch : FetchImage) (it : NewsItem) : NewsItem :=
  if !truthyOpt it.image && !(it.url == "") then
    match fetch it.url with
    | some image => if image == "" then it else { it with image := some image }
    | none => it
  else it

/-- The backfill loop over the merged list; the in-place mutation of each
dict is the pointwise update of the list. -/
def imageBackfill (fetch : FetchImage) (items : List NewsItem) : List NewsItem :=
  items.map (backfillItem fetch)

/-- The enrichment step applied to one news item (lines 801-807):
`news_to_translate` selects the items with falsy title_translated, the
batch call maps translate_news_item over them, and `item.update(...)` on
the full copy replaces the item by its translated copy; items with truthy
title_translated are left alone. -/
def enrichItem (net : Net) (it : NewsItem) : NewsItem :=
  if truthyOpt it.title_translated then it
  else translate_news_item net it "zh-CN"

/-- The enrichment pass over the filtered news list. -/
def enrichNews (net : Net) (items : List NewsItem) : List NewsItem :=
  items.map (enrichItem net)

/-- The item of the C9 counterexample: title_translated is present but
empty while summary_translated holds a non-empty stored value. -/
def c9Item : NewsItem :=
  ⟨"c9", "title9", "summary9", "https://c9", "S", "S", "2026-01-01", "news",
   "android", some "img", some "", some "stored translation"⟩

/-- C9 counterexample: the enrichment pass overwrites an existing non-empty
field: on an item with empty title_translated but non-empty
summary_translated, the update replaces summary_translated (here, with the
untranslated summary, since the network fails), so the passes are not
additive-only. -/
theorem c9_counterexample :
    truthyOpt c9Item.summary_translated = true
    ∧ c9Item.summary_translated = some "stored translation"
    ∧ (enrichItem (fun _ _ => HttpResult.fail) c9Item).summary_translated = some "summary9"
    ∧ (enrichItem (fun _ _ => HttpResult.fail) c9Item).summary_translated
        ≠ c9Item.summary_translated := by
  refine ⟨rfl, rfl, ?_, ?_⟩ <;> decide

/-- C9 amended: image backfill writes only the image field and only when it
was absent or empty (truthy image means the item is returned untouched,
and every other field is always preserved); enrichment is attempted only
for items whose title_translated is absent or empty (truthy
title_translated means the item is returned untouched, and fields other
than title_translated and summary_translated are always preserved), but
for an item it does translate, an existing non-empty summary_translated
is overwritten rather than kept. -/
theorem c9_backfill_enrich (fetch : FetchImage) (net : Net) (it : NewsItem) :
    (truthyOpt it.image = true → backfillItem fetch it = it)
    ∧ ((backfillItem fetch it).image = it.image ∨ truthyOpt it.image = false)
    ∧ (backfillItem fetch it).id = it.id
    ∧ (backfillItem fetch it).title = it.title
    ∧ (backfillItem fetch it).summary = it.summary
    ∧ (backfillItem fetch it).url = it.url
    ∧ (backfillItem fetch it).date = it.date
    ∧ (backfillItem fetch it).type = it.type
    ∧ (backfillItem fetch it).platform = it.platform
    ∧ (backfillItem fetch it).title_translated = it.title_translated
    ∧ (backfillItem fetch it).summary_translated = it.summary_translated
    ∧ (truthyOpt it.title_translated = true → enrichItem net it = it)
    ∧ (enrichItem net it).id = it.id
    ∧ (enrichItem net it).title = it.title
    ∧ (enrichItem net it).summary = it.summary
    ∧ (enrichItem net it).url = it.url
    ∧ (enrichItem net it).date = it.date
    ∧ (enrichItem net it).type = it.type
    ∧ (enrichItem net it).platform = it.platform
    ∧ (enrichItem net it).image = it.image
    ∧ imageBackfill fetch [it] = [backfillItem fetch it]
    ∧ enrichNews net [it] = [enrichItem net it] := by
  have hb : ∀ fld : NewsItem → Option String,
      (∀ img, fld { it with image := some img } = fld it) →
      fld (backfillItem fetch it) = fld it := by
    intro fld hf
    unfold backfillItem
    split
    · cases hme : fetch it.url with
      | none => rfl
      | some image =>
        by_cases hi : image == ""
        · simp [hme, hi]
        · simp [hme, hi, hf]
    · rfl
  have hbs : ∀ fld : NewsItem → String,
      (∀ img, fld { it with image := some img } = fld it) →
      fld (backfillItem fetch it) = fld it := by
    intro fld hf
    unfold backfillItem
    split
    · cases hme : fetch it.url with
      | none => rfl
      | some image =>
        by_cases hi : image == ""
        · simp [hme, hi]
        · simp [hme, hi, hf]
    · rfl
  have he : ∀ fld : NewsItem → String,
      (∀ a b, fld { it with title_translated := a, summary_translated := b } = fld it) →
      fld (enrichItem net it) = fld it := by
    intro fld hf
    unfold enrichItem translate_news_item
    split
    · rfl
    · simp [hf]
  refine ⟨?_, ?_, hbs (·.id) (fun _ => rfl), hbs (·.title) (fun _ => rfl),
    hbs (·.summary) (fun _ => rfl), hbs (·.url) (fun _ => rfl),
    hbs (·.date) (fun _ => rfl), hbs (·.type) (fun _ => rfl),
    hbs (·.platform) (fun _ => rfl), hb (·.title_translated) (fun _ => rfl),
    hb (·.summary_translated) (fun _ => rfl), ?_,
    he (·.id) (fun _ _ => rfl), he (·.title) (fun _ _ => rfl),
    he (·.summary) (fun _ _ => rfl), he (·.url) (fun _ _ => rfl),
    he (·.date) (fun _ _ => rfl), he (·.type) (fun _ _ => rfl),
    he (·.platform) (fun _ _ => rfl), ?_, rfl, rfl⟩
  · intro ht
    simp [backfillItem, ht]
  · by_cases ht : truthyOpt it.image = true
    · left
      rw [(by simp [backfillItem, ht] : backfillItem fetch it = it)]
    · right
      simpa using ht
  · intro ht
    simp [enrichItem, ht]
  · unfold enrichItem translate_news_item
    split
    · rfl
    · simp

/-- Witness for C9 at an item whose image and title_translated are both
already non-empty: both passes leave it untouched. -/
def c9Witness : NewsItem :=
  ⟨"c9w", "t", "s", "https://c9w", "S", "S", "2026-01-01", "news", "ios",
   some "http-img", some "已翻译", some "已翻译摘要"⟩

/-- Witness for C9 amended, discharging both truthiness hypotheses at a
concrete item. -/
theorem c9_witness_applied :
    backfillItem (fun _ => some "x") c9Witness = c9Witness
    ∧ enrichItem (fun _ _ => HttpResult.fail) c9Witness = c9Witness :=
  ⟨(c9_backfill_enrich (fun _ => some "x") (fun _ _ => HttpResult.fail) c9Witness).1
      (by decide),
   (c9_backfill_enrich (fun _ => some "x") (fun _ _ => HttpResult.fail)
      c9Witness).2.2.2.2.2.2.2.2.2.2.2.1 (by decide)⟩

/-! ## Store loading (load_news, src/scraper.py lines 833-838)

The file system and json.load are the external effects: the file is
`Option String` (`none` when os.path.exists is false) and the JSON parse
is a parameter returning `none` exactly when json.load would raise. -/

/-- The persisted snapshot as far as load_news's callers consume it. -/
structure StoreData where
  items : List NewsItem
  last_updated : Option String
  total_count : Nat
  deriving DecidableEq, Repr

/-- The dict literal returned when the file is missing. -/
def emptyStore : StoreData :=
  { items := [], last_updated := none, total_count := 0 }

/-- Outcome of a load_news call: a returned store, or an exception
propagating out (json.load is not wrapped in any try block). -/
inductive LoadOutcome where
  | ok (d : StoreData)
  | raised
  deriving DecidableEq, Repr

/-- load_news of src/scraper.py lines 833-838. -/
def load_news (parseJson : String → Option StoreData) (file : Option String) :
    LoadOutcome :=
  match file with
  | none => .ok emptyStore
  | some content =>
    match parseJson content with
    | some d => .ok d
    | none => .raised

/-- C5 counterexample: a present but corrupt store file (JSON parse fails)
makes load_news raise instead of returning the empty history, so a corrupt
file is fatal to the run (scrape_all calls load_news outside any try
block). -/
theorem c5_counterexample :
    load_news (fun _ => none) (some "not json") = LoadOutcome.raised
    ∧ LoadOutcome.raised ≠ LoadOutcome.ok emptyStore := by
  exact ⟨rfl, by decide⟩

/-- C5 amended: only a missing store file is treated as an empty history
(load_news returns the empty store and the run proceeds); a present file
that parses yields its parsed store, and a present but corrupt file makes
load_news raise. -/
theorem c5_load_news (parseJson : String → Option StoreData) (content : String) :
    load_news parseJson none = LoadOutcome.ok emptyStore
    ∧ (parseJson content = none → load_news parseJson (some content) = LoadOutcome.raised)
    ∧ (∀ d, parseJson content = some d →
        load_news parseJson (some content) = LoadOutcome.ok d) := by
  refine ⟨rfl, ?_, ?_⟩
  · intro hp
    simp [load_news, hp]
  · intro d hp
    simp [load_news, hp]

/-- Witness for C5 amended at a concrete parse function and content. -/
theorem c5_witness :
    load_news (fun _ => none) none = LoadOutcome.ok emptyStore
    ∧ load_news (fun _ => none) (some "x") = LoadOutcome.raised :=
  ⟨(c5_load_news (fun _ => none) "x").1, (c5_load_news (fun _ => none) "x").2.1 rfl⟩

/-! ## Result ordering (scrape_all, steps 4-7, src/scraper.py lines 715-809)

`news_items.sort(key=lambda x: x['date'], reverse=True)` is a stable sort
by the date string, descending; the surrounding try/except never fires in
the embedding because date is a total string field.  It is modelled by a
stable insertion sort on the same key.  The leaker roster and
get_leaker_info (lines 126-132 and 646-661) are embedded with the current
date as a parameter. -/

/-- Descending order on the date strings (plain lexicographic string
comparison, as in Python). -/
def dateGe (a b : NewsItem) : Prop := b.date ≤ a.date

def insertDesc (x : NewsItem) : List NewsItem → List NewsItem
  | [] => [x]
  | y :: ys => if y.date ≤ x.date then x :: y :: ys else y :: insertDesc x ys

/-- The date-descending sort of step 4. -/
def sortDesc : List NewsItem → List NewsItem
  | [] => []
  | x :: xs => insertDesc x (sortDesc xs)

theorem mem_insertDesc (x a : NewsItem) (l : List NewsItem) :
    a ∈ insertDesc x l ↔ a = x ∨ a ∈ l := by
  induction l with
  | nil => simp [insertDesc]
  | cons y ys ih =>
    by_cases hc : y.date ≤ x.date
    · simp only [insertDesc, if_pos hc, List.mem_cons]
      try tauto
    · simp only [insertDesc, if_neg hc, List.mem_cons, ih]
      try tauto

theorem mem_sortDesc (a : NewsItem) (l : List NewsItem) :
    a ∈ sortDesc l ↔ a ∈ l := by
  induction l with
  | nil => simp [sortDesc]
  | cons x xs ih =>
    simp only [sortDesc, mem_insertDesc, ih, List.mem_cons]

theorem pairwise_insertDesc (x : NewsItem) (l : List NewsItem)
    (h : l.Pairwise dateGe) : (insertDesc x l).Pairwise dateGe := by
  induction l with
  | nil => simp [insertDesc, dateGe]
  | cons y ys ih =>
    rcases List.pairwise_cons.mp h with ⟨hy, hys⟩
    by_cases hc : y.date ≤ x.date
    · simp only [insertDesc, if_pos hc]
      refine List.pairwise_cons.mpr ⟨?_, h⟩
      intro z hz
      rcases List.mem_cons.mp hz with rfl | hz
      · exact hc
      · exact le_trans (hy z hz) hc
    · simp only [insertDesc, if_neg hc]
      refine List.pairwise_cons.mpr ⟨?_, ih hys⟩
      intro z hz
      rcases (mem_insertDesc x z ys).mp hz with rfl | hz
      · exact le_of_not_le hc
      · exact hy z hz

theorem pairwise_sortDesc (l : List NewsItem) : (sortDesc l).Pairwise dateGe := by
  induction l with
  | nil => exact List.Pairwise.nil
  | cons x xs ih => exact pairwise_insertDesc x (sortDesc xs) ih

theorem backfillItem_date (fetch : FetchImage) (it : NewsItem) :
    (backfillItem fetch it).date = it.date := by
  unfold backfillItem
  split
  · cases fetch it.url with
    | none => rfl
    | some image => by_cases hi : image == "" <;> simp [hi]
  · rfl

theorem backfillItem_type (fetch : FetchImage) (it : NewsItem) :
    (backfillItem fetch it).type = it.type := by
  unfold backfillItem
  split
  · cases fetch it.url with
    | none => rfl
    | some image => by_cases hi : image == "" <;> simp [hi]
  · rfl

theorem enrichItem_date (net : Net) (it : NewsItem) :
    (enrichItem net it).date = it.date := by
  unfold enrichItem translate_news_item
  split
  · rfl
  · split <;> rfl

theorem enrichItem_type (net : Net) (it : NewsItem) :
    (enrichItem net it).type = it.type := by
  unfold enrichItem translate_news_item
  split
  · rfl
  · split <;> rfl

/-- One entry of the LEAKERS roster of src/scraper.py lines 126-132. -/
structure Leaker where
  name : String
  handle : String
  avatar : String
  deriving DecidableEq, Repr

/-- The LEAKERS roster, in source order. -/
def LEAKERS : List Leaker :=
  [⟨"OnLeaks", "@OnLeaks",
    "https://pbs.twimg.com/profile_images/1590049827662032896/3Jdz7fGM_400x400.jpg"⟩,
   ⟨"Evan Blass", "@evleaks",
    "https://pbs.twimg.com/profile_images/1683602571156635648/NmFNPE3__400x400.jpg"⟩,
   ⟨"Ice Universe", "@UniverseIce",
    "https://pbs.twimg.com/profile_images/1590753781534375937/G63Fcoiq_400x400.jpg"⟩,
   ⟨"Mishaal Rahman", "@MishaalRahman",
    "https://pbs.twimg.com/profile_images/1772892077495795712/nnAPEaB2_400x400.jpg"⟩,
   ⟨"Max Weinbach", "@MaxWineworthy",
    "https://pbs.twimg.com/profile_images/1402848727407013888/6VrpdaKh_400x400.jpg"⟩]

/-- One synthetic leaker record of get_leaker_info; `today` is
`datetime.now().strftime('%Y-%m-%d')`. -/
def leakerItem (today : String) (i : Nat) (l : Leaker) : NewsItem :=
  { id := "leaker_" ++ toString i,
    title := l.name ++ " (" ++ l.handle ++ ")",
    summary := "关注 " ++ l.handle
      ++ " 获取最新 Android 爆料信息。由于 Twitter/X API 限制，请手动查看其账号获取最新消息。",
    url := "https://twitter.com/" ++ (l.handle.replace "@" ""),
    source := "Leaker",
    source_icon := "🔥",
    date := today,
    type := "leaker",
    platform := "",
    image := some l.avatar,
    title_translated := none,
    summary_translated := none }

/-- Python `enumerate`. -/
def enumFrom : Nat → List Leaker → List (Nat × Leaker)
  | _, [] => []
  | i, l :: ls => (i, l) :: enumFrom (i + 1) ls

/-- get_leaker_info of src/scraper.py lines 646-661. -/
def get_leaker_info (today : String) : List NewsItem :=
  (enumFrom 0 LEAKERS).map fun p => leakerItem today p.1 p.2

/-- The news part of the result: steps 4 to 4.7 plus the in-place
enrichment of step 7 (which mutates the news dicts shared with
`sorted_news` and never touches the leaker records). -/
def newsPart (fetch : FetchImage) (net : Net) (merged : List NewsItem) : List NewsItem :=
  enrichNews net (iosStage2 (androidStage2 (imageBackfill fetch (sortDesc merged))))

/-- The `items` field of the persisted result (`sorted_news`, line 795,
after the step-7 mutation). -/
def scrape_items (fetch : FetchImage) (net : Net) (merged : List NewsItem)
    (today : String) : List NewsItem :=
  newsPart fetch net merged ++ get_leaker_info today

theorem leaker_titles (today : String) :
    ∀ (ls : List Leaker) (i : Nat),
      ((enumFrom i ls).map fun p => leakerItem today p.1 p.2).map NewsItem.title
        = ls.map fun l => l.name ++ " (" ++ l.handle ++ ")" := by
  intro ls
  induction ls with
  | nil => intro i; rfl
  | cons l ls ih =>
    intro i
    simp only [enumFrom, List.map_cons, ih]
    rfl

/-- dateGe survives any date-preserving rewrite of both sides. -/
theorem pairwise_dateGe_map (f : NewsItem → NewsItem)
    (hf : ∀ it, (f it).date = it.date) (l : List NewsItem)
    (h : l.Pairwise dateGe) : (l.map f).Pairwise dateGe := by
  rw [List.pairwise_map]
  refine h.imp ?_
  intro a b hab
  show (f b).date ≤ (f a).date
  rw [hf a, hf b]
  exact hab

/-- C6: the result item sequence is the (stage-2 filtered, backfilled,
enriched) news items sorted by date string descending, followed by all
leaker items in roster order; every item of the news part has type news
and every appended item has type leaker, so no leaker precedes a news item
and leakers are never interleaved by date. -/
theorem c6_result_ordering (fetch : FetchImage) (net : Net) (merged : List NewsItem)
    (today : String) (hall : ∀ it ∈ merged, it.type = "news") :
    scrape_items fetch net merged today
      = newsPart fetch net merged ++ get_leaker_info today
    ∧ (newsPart fetch net merged).Pairwise dateGe
    ∧ (∀ it ∈ newsPart fetch net merged, it.type = "news")
    ∧ (∀ it ∈ get_leaker_info today, it.type = "leaker")
    ∧ (get_leaker_info today).map NewsItem.title
        = LEAKERS.map fun l => l.name ++ " (" ++ l.handle ++ ")" := by
  have hfilterA : androidStage2 (imageBackfill fetch (sortDesc merged))
      = (imageBackfill fetch (sortDesc merged)).filter androidKeep :=
    stage2Loop_eq_filter _ _
  have hfilterI : iosStage2 ((imageBackfill fetch (sortDesc merged)).filter androidKeep)
      = ((imageBackfill fetch (sortDesc merged)).filter androidKeep).filter iosKeep :=
    stage2Loop_eq_filter _ _
  refine ⟨rfl, ?_, ?_, ?_, leaker_titles today LEAKERS 0⟩
  · have h1 : (sortDesc merged).Pairwise dateGe := pairwise_sortDesc merged
    have h2 : (imageBackfill fetch (sortDesc merged)).Pairwise dateGe :=
      pairwise_dateGe_map _ (backfillItem_date fetch) _ h1
    have h3 : ((imageBackfill fetch (sortDesc merged)).filter androidKeep).Pairwise dateGe :=
      List.Pairwise.sublist (List.filter_sublist _) h2
    have h4 : (((imageBackfill fetch (sortDesc merged)).filter androidKeep).filter
        iosKeep).Pairwise dateGe :=
      List.Pairwise.sublist (List.filter_sublist _) h3
    unfold newsPart enrichNews
    rw [hfilterA, hfilterI]
    exact pairwise_dateGe_map _ (enrichItem_date net) _ h4
  · intro it hit
    unfold newsPart enrichNews at hit
    rw [hfilterA, hfilterI] at hit
    obtain ⟨a, ha, rfl⟩ := List.mem_map.mp hit
    have ha2 := (List.mem_filter.mp (List.mem_filter.mp ha).1).1
    obtain ⟨b, hb, rfl⟩ := List.mem_map.mp ha2
    rw [enrichItem_type, backfillItem_type]
    exact hall b ((mem_sortDesc b merged).mp hb)
  · intro it hit
    obtain ⟨p, -, rfl⟩ := List.mem_map.mp hit
    rfl

/-- Witness for C6 at a concrete two-item merged history. -/
theorem c6_witness :
    scrape_items (fun _ => none) (fun _ _ => HttpResult.fail) [wItemOld, wItemNew] "2026-02-02"
      = newsPart (fun _ => none) (fun _ _ => HttpResult.fail) [wItemOld, wItemNew]
        ++ get_leaker_info "2026-02-02"
    ∧ (newsPart (fun _ => none) (fun _ _ => HttpResult.fail)
        [wItemOld, wItemNew]).Pairwise dateGe := by
  have h := c6_result_ordering (fun _ => none) (fun _ _ => HttpResult.fail)
    [wItemOld, wItemNew] "2026-02-02" (by decide)
  exact ⟨h.1, h.2.1⟩

/-! ## Date normalizer (src/scraper.py lines 44-123)

`extract_date_from_url` applies four regex patterns in order; for each
pattern `re.search` yields only the leftmost match (greedy in each
`\d{1,2}`), whose groups are then bounds-checked; a failed check moves to
the next pattern, not to a later match of the same pattern.

`parse_news_date` first calls `dateutil.parser.parse` - an external
library, modelled as a parameter `g : GenParse` (`none` when it raises) -
then falls back to a fixed strptime format list, embedded below following
the CPython `_strptime` directive regexes (`%m` is `1[0-2]|0[1-9]|[1-9]`
and so on), with the datetime constructor's range checks as `validDT`.
`%Z` accepts the always-present names utc/gmt (environment-local zone
names are not modelled; no theorem depends on that path succeeding). -/

/-- A parsed naive datetime (tz offsets are consumed but not stored:
strftime prints the parsed wall-clock fields). -/
structure DT where
  year : Nat
  month : Nat
  day : Nat
  hour : Nat
  minute : Nat
  second : Nat
  deriving DecidableEq, Repr

def digitVal (c : Char) : Nat := c.toNat - 48

/-- `\d{4}`: exactly four digits. -/
def take4digits : List Char → Option (Nat × List Char)
  | a :: b :: c :: d :: rest =>
    if a.isDigit && b.isDigit && c.isDigit && d.isDigit then
      some (digitVal a * 1000 + digitVal b * 100 + digitVal c * 10 + digitVal d, rest)
    else none
  | _ => none

/-- `\d{1,2}` followed by a literal: greedy, two digits if the literal then
follows, else one digit followed by the literal. -/
def take12Then (lit : Char) : List Char → Option (Nat × List Char)
  | a :: b :: c :: rest =>
    if a.isDigit && b.isDigit && c == lit then
      some (digitVal a * 10 + digitVal b, rest)
    else if a.isDigit && b == lit then
      some (digitVal a, c :: rest)
    else none
  | [a, b] => if a.isDigit && b == lit then some (digitVal a, []) else none
  | _ => none

/-- `\d{1,2}` at the end of a pattern: greedy, two digits if available. -/
def take12End : List Char → Option (Nat × List Char)
  | a :: b :: rest =>
    if a.isDigit && b.isDigit then some (digitVal a * 10 + digitVal b, rest)
    else if a.isDigit then some (digitVal a, b :: rest)
    else none
  | [a] => if a.isDigit then some (digitVal a, []) else none
  | [] => none

/-- Pattern `/(\d{4})/(\d{1,2})/(\d{1,2})/` anchored at the start. -/
def matchP1 : List Char → Option (Nat × Nat × Nat)
  | '/' :: rest =>
    match take4digits rest with
    | some (y, r1) =>
      match r1 with
      | '/' :: r2 =>
        match take12Then '/' r2 with
        | some (m, r3) =>
          match take12Then '/' r3 with
          | some (d, _) => some (y, m, d)
          | none => none
        | none => none
      | _ => none
    | none => none
  | _ => none

/-- Pattern `/(\d{4})-(\d{1,2})-(\d{1,2})/` anchored at the start. -/
def matchP2 : List Char → Option (Nat × Nat × Nat)
  | '/' :: rest =>
    match take4digits rest with
    | some (y, r1) =>
      match r1 with
      | '-' :: r2 =>
        match take12Then '-' r2 with
        | some (m, r3) =>
          match take12Then '/' r3 with
          | some (d, _) => some (y, m, d)
          | none => none
        | none => none
      | _ => none
    | none => none
  | _ => none

/-- Pattern `(\d{4})/(\d{1,2})/(\d{1,2})/` anchored at the start. -/
def matchP3 (cs : List Char) : Option (Nat × Nat × Nat) :=
  match take4digits cs with
  | some (y, r1) =>
    match r1 with
    | '/' :: r2 =>
      match take12Then '/' r2 with
      | some (m, r3) =>
        match take12Then '/' r3 with
        | some (d, _) => some (y, m, d)
        | none => none
      | none => none
    | _ => none
  | none => none

/-- Pattern `(\d{4})-(\d{1,2})-(\d{1,2})` anchored at the start. -/
def matchP4 (cs : List Char) : Option (Nat × Nat × Nat) :=
  match take4digits cs with
  | some (y, r1) =>
    match r1 with
    | '-' :: r2 =>
      match take12Then '-' r2 with
      | some (m, r3) =>
        match take12End r3 with
        | some (d, _) => some (y, m, d)
        | none => none
      | none => none
    | _ => none
  | none => none

/-- `re.search`: the leftmost position where the pattern matches. -/
def searchP (m : List Char → Option (Nat × Nat × Nat)) : List Char → Option (Nat × Nat × Nat)
  | [] => m []
  | c :: rest =>
    match m (c :: rest) with
    | some r => some r
    | none => searchP m rest

/-- The bounds check of extract_date_from_url (line 63). -/
def validYMD (y m d : Nat) : Bool :=
  2000 ≤ y && y ≤ 2100 && 1 ≤ m && m ≤ 12 && 1 ≤ d && d ≤ 31

/-- `%02d`. -/
def fmt2 (n : Nat) : String :=
  if n < 10 then "0" ++ toString n else toString n

/-- `%04d`. -/
def fmt4 (n : Nat) : String :=
  if n < 10 then "000" ++ toString n
  else if n < 100 then "00" ++ toString n
  else if n < 1000 then "0" ++ toString n
  else toString n

/-- The for-loop over the four patterns: a match with invalid bounds falls
through to the next pattern. -/
def extractGo : List (List Char → Option (Nat × Nat × Nat)) → List Char → String
  | [], _ => ""
  | p :: ps, cs =>
    match searchP p cs with
    | some (y, m, d) =>
      if validYMD y m d then fmt4 y ++ "-" ++ fmt2 m ++ "-" ++ fmt2 d
      else extractGo ps cs
    | none => extractGo ps cs

/-- extract_date_from_url of src/scraper.py lines 44-67. -/
def extract_date_from_url (url : String) : String :=
  extractGo [matchP1, matchP2, matchP3, matchP4] url.data

/-- `%m` directive regex `1[0-2]|0[1-9]|[1-9]`. -/
def takeMonth : List Char → Option (Nat × List Char)
  | a :: b :: rest =>
    if a == '1' && ('0' ≤ b && b ≤ '2') then some (10 + digitVal b, rest)
    else if a == '0' && ('1' ≤ b && b ≤ '9') then some (digitVal b, rest)
    else if '1' ≤ a && a ≤ '9' then some (digitVal a, b :: rest)
    else none
  | [a] => if '1' ≤ a && a ≤ '9' then some (digitVal a, []) else none
  | [] => none

/-- `%d` directive regex `3[01]|[12]\d|0[1-9]|[1-9]`. -/
def takeDay : List Char → Option (Nat × List Char)
  | a :: b :: rest =>
    if a == '3' && (b == '0' || b == '1') then some (30 + digitVal b, rest)
    else if (a == '1' || a == '2') && b.isDigit then
      some (digitVal a * 10 + digitVal b, rest)
    else if a == '0' && ('1' ≤ b && b ≤ '9') then some (digitVal b, rest)
    else if '1' ≤ a && a ≤ '9' then some (digitVal a, b :: rest)
    else none
  | [a] => if '1' ≤ a && a ≤ '9' then some (digitVal a, []) else none
  | [] => none

/-- `%H` directive regex `2[0-3]|[0-1]\d|\d`. -/
def takeHour : List Char → Option (Nat × List Char)
  | a :: b :: rest =>
    if a == '2' && ('0' ≤ b && b ≤ '3') then some (20 + digitVal b, rest)
    else if (a == '0' || a == '1') && b.isDigit then
      some (digitVal a * 10 + digitVal b, rest)
    else if a.isDigit then some (digitVal a, b :: rest)
    else none
  | [a] => if a.isDigit then some (digitVal a, []) else none
  | [] => none

/-- `%M` directive regex `[0-5]\d|\d`. -/
def takeMin : List Char → Option (Nat × List Char)
  | a :: b :: rest =>
    if ('0' ≤ a && a ≤ '5') && b.isDigit then
      some (digitVal a * 10 + digitVal b, rest)
    else if a.isDigit then some (digitVal a, b :: rest)
    else none
  | [a] => if a.isDigit then some (digitVal a, []) else none
  | [] => none

/-- `%S` directive regex `6[0-1]|[0-5]\d|\d`. -/
def takeSec : List Char → Option (Nat × List Char)
  | a :: b :: rest =>
    if a == '6' && (b == '0' || b == '1') then some (60 + digitVal b, rest)
    else if ('0' ≤ a && a ≤ '5') && b.isDigit then
      some (digitVal a * 10 + digitVal b, rest)
    else if a.isDigit then some (digitVal a, b :: rest)
    else none
  | [a] => if a.isDigit then some (digitVal a, []) else none
  | [] => none

/-- Two mandatory digits. -/
def take2digits : List Char → Option (Nat × List Char)
  | a :: b :: rest =>
    if a.isDigit && b.isDigit then some (digitVal a * 10 + digitVal b, rest)
    else none
  | _ => none

/-- The optional fractional part `(\.\d{1,6})?` of `%z`. -/
def takeTzFrac : List Char → List Char
  | '.' :: t =>
    let ds := t.takeWhile (fun c => c.isDigit)
    if ds.length == 0 then '.' :: t else t.drop (min ds.length 6)
  | l => l

/-- The optional seconds group `(:?\d\d(\.\d{1,6})?)?` of `%z`. -/
def takeTzSecs (l : List Char) : List Char :=
  match l with
  | ':' :: a :: b :: rest => if a.isDigit && b.isDigit then takeTzFrac rest else l
  | a :: b :: rest => if a.isDigit && b.isDigit then takeTzFrac rest else l
  | _ => l

/-- `%z` directive regex `[+-]\d\d:?\d\d(:?\d\d(\.\d{1,6})?)?|Z`, with the
timezone constructor's strict 24-hour bound; the parsed offset is
discarded. -/
def takeTz (l : List Char) : Option (List Char) :=
  match l with
  | 'Z' :: rest => some rest
  | c :: rest =>
    if c == '+' || c == '-' then
      match take2digits rest with
      | some (hh, r1) =>
        match (match r1 with
               | ':' :: t => take2digits t
               | t => take2digits t) with
        | some (mm, r3) =>
          if hh * 60 + mm < 24 * 60 then some (takeTzSecs r3) else none
        | none => none
      | none => none
    else none
  | [] => none

/-- A single literal format character (strptime compiles the format with
IGNORECASE, so letters match either case). -/
def takeLit (c : Char) : List Char → Option (List Char)
  | d :: rest => if d.toLower == c.toLower then some rest else none
  | [] => none

/-- Whitespace in a format string matches `\s+`. -/
def takeWs : List Char → Option (List Char)
  | c :: rest =>
    if pyIsSpaceChar c then some (rest.dropWhile pyIsSpaceChar) else none
  | [] => none

def weekdayNames : List String :=
  ["mon", "tue", "wed", "thu", "fri", "sat", "sun"]

def monthNames : List String :=
  ["jan", "feb", "mar", "apr", "may", "jun", "jul", "aug", "sep", "oct",
   "nov", "dec"]

def abbrIdx (w : String) : List String → Option Nat
  | [] => none
  | n :: ns => if n == w then some 0 else (abbrIdx w ns).map (· + 1)

/-- `%a`/`%b`: a three-letter abbreviated name, case-insensitive. -/
def takeAbbr (names : List String) : List Char → Option (Nat × List Char)
  | a :: b :: c :: rest =>
    match abbrIdx (String.mk [a.toLower, b.toLower, c.toLower]) names with
    | some i => some (i, rest)
    | none => none
  | _ => none

/-- `%Z`: the always-available zone names (utc/gmt), case-insensitive. -/
def takeTzName : List Char → Option (List Char)
  | a :: b :: c :: rest =>
    let w := String.mk [a.toLower, b.toLower, c.toLower]
    if w == "utc" || w == "gmt" then some rest else none
  | _ => none

def isLeap (y : Nat) : Bool :=
  (y % 4 == 0 && y % 100 != 0) || y % 400 == 0

def daysInMonth (y m : Nat) : Nat :=
  if m == 2 then (if isLeap y then 29 else 28)
  else if m == 4 || m == 6 || m == 9 || m == 11 then 30
  else 31

/-- The datetime constructor's range checks (a failure raises ValueError,
caught by the scraper, so the format simply fails). -/
def validDT (d : DT) : Bool :=
  1 ≤ d.year && 1 ≤ d.month && d.month ≤ 12
    && 1 ≤ d.day && d.day ≤ daysInMonth d.year d.month
    && d.hour ≤ 23 && d.minute ≤ 59 && d.second ≤ 59

/-- One strptime directive of the formats the scraper uses. -/
inductive Dir where
  | y4
  | mon
  | day
  | hour
  | minute
  | second
  | tz
  | tzname
  | wd
  | monname
  | ws
  | lit (c : Char)
  deriving DecidableEq, Repr

/-- Consume one directive, updating the parsed fields. -/
def runDir (d : Dir) (st : DT) (cs : List Char) : Option (DT × List Char) :=
  match d with
  | .y4 => (take4digits cs).map fun p => ({ st with year := p.1 }, p.2)
  | .mon => (takeMonth cs).map fun p => ({ st with month := p.1 }, p.2)
  | .day => (takeDay cs).map fun p => ({ st with day := p.1 }, p.2)
  | .hour => (takeHour cs).map fun p => ({ st with hour := p.1 }, p.2)
  | .minute => (takeMin cs).map fun p => ({ st with minute := p.1 }, p.2)
  | .second => (takeSec cs).map fun p => ({ st with second := p.1 }, p.2)
  | .tz => (takeTz cs).map fun r => (st, r)
  | .tzname => (takeTzName cs).map fun r => (st, r)
  | .wd => (takeAbbr weekdayNames cs).map fun p => (st, p.2)
  | .monname => (takeAbbr monthNames cs).map fun p => ({ st with month := p.1 + 1 }, p.2)
  | .ws => (takeWs cs).map fun r => (st, r)
  | .lit c => (takeLit c cs).map fun r => (st, r)

def runFmt : List Dir → DT → List Char → Option (DT × List Char)
  | [], st, cs => some (st, cs)
  | d :: ds, st, cs =>
    match runDir d st cs with
    | some (st2, cs2) => runFmt ds st2 cs2
    | none => none

/-- `datetime.strptime(s, fmt)`: the whole string must be consumed, the
unset fields default to 1900-01-01 00:00:00, and the datetime constructor
range-checks the result. -/
def strptime (fmt : List Dir) (cs : List Char) : Option DT :=
  match runFmt fmt ⟨1900, 1, 1, 0, 0, 0⟩ cs with
  | some (st, []) => if validDT st then some st else none
  | _ => none

/-- `'%Y-%m-%dT%H:%M:%S%z'`. -/
def isoTzFmt : List Dir :=
  [.y4, .lit '-', .mon, .lit '-', .day, .lit 'T', .hour, .lit ':', .minute,
   .lit ':', .second, .tz]

/-- `'%Y-%m-%d %H:%M:%S'`. -/
def ymdHmsFmt : List Dir :=
  [.y4, .lit '-', .mon, .lit '-', .day, .ws, .hour, .lit ':', .minute,
   .lit ':', .second]

/-- `'%Y-%m-%d'`. -/
def ymdFmt : List Dir :=
  [.y4, .lit '-', .mon, .lit '-', .day]

/-- `'%a, %d %b %Y %H:%M:%S %z'`. -/
def rssFmt : List Dir :=
  [.wd, .lit ',', .ws, .day, .ws, .monname, .ws, .y4, .ws, .hour, .lit ':',
   .minute, .lit ':', .second, .ws, .tz]

/-- `'%a, %d %b %Y %H:%M:%S %Z'`. -/
def rssZFmt : List Dir :=
  [.wd, .lit ',', .ws, .day, .ws, .monname, .ws, .y4, .ws, .hour, .lit ':',
   .minute, .lit ':', .second, .ws, .tzname]

/-- The `date_formats` list of lines 98-104, in source order. -/
def date_formats : List (List Dir) :=
  [isoTzFmt, ymdHmsFmt, ymdFmt, rssFmt, rssZFmt]

/-- The fallback loop of lines 106-111, first success wins. -/
def date_formats_parse (cs : List Char) : Option DT :=
  date_formats.findSome? fun fmt => strptime fmt cs

/-- dateutil.parser.parse, the external generic parser of method 1:
`none` models a raised exception. -/
def GenParse : Type := String → Option DT

/-- Method 1 then method 2: `parsed_date` after lines 90-111. -/
def parseAll (g : GenParse) (s : String) : Option DT :=
  match g s with
  | some d => some d
  | none => date_formats_parse s.data

/-- The output formatting of lines 113-120: date-only at exact midnight,
date plus minute precision otherwise. -/
def formatDT (d : DT) : String :=
  if d.hour == 0 && d.minute == 0 && d.second == 0 then
    fmt4 d.year ++ "-" ++ fmt2 d.month ++ "-" ++ fmt2 d.day
  else
    fmt4 d.year ++ "-" ++ fmt2 d.month ++ "-" ++ fmt2 d.day ++ " "
      ++ fmt2 d.hour ++ ":" ++ fmt2 d.minute

/-- parse_news_date of src/scraper.py lines 69-123. -/
def parse_news_date (g : GenParse) (date_str : String) (url : String) : String :=
  if date_str == "" then
    if url == "" then ""
    else
      let url_date := extract_date_from_url url
      if url_date == "" then "" else url_date
  else
    match parseAll g date_str with
    | some d => formatDT d
    | none => date_str.take 50

/-- The URL of the C4 counterexample: its leftmost date-shaped segment
fails the bounds check (year 1999), and the loop then moves to the next
pattern rather than to the next match, so the valid later segment
/2026/01/28/ is never extracted. -/
def c4Url : String := "https://example.com/1999/01/01/2026/01/28/post"

/-- C4 counterexample: an empty raw date with a URL that does contain a
valid /YYYY/MM/DD/ segment (year in bounds) still normalizes to "",
because each pattern contributes only its leftmost match and the leftmost
one here is out of bounds. -/
theorem c4_counterexample :
    containsSub c4Url "/2026/01/28/" = true
    ∧ validYMD 2026 1 28 = true
    ∧ parse_news_date (fun _ => none) "" c4Url = "" := by
  refine ⟨by decide, by decide, by decide⟩

/-- C4 amended: the fallback chain is ordered with first success winning:
an empty raw string yields exactly what URL extraction yields (the
leftmost match of each of the four patterns in order, bounds-checked, so
a URL whose leftmost date-shaped segment is invalid can yield "" even if
a valid segment appears later); when either the generic parse or the
format list succeeds, a midnight time (zero hours, minutes, seconds)
yields the date-only form and any other time the date-plus-minute form;
when both fail on a non-empty raw string the result is the raw string
truncated to 50 characters, never null; and the parseable example
"2026-01-28T10:00:00+0000" yields "2026-01-28 10:00" whenever the generic
parser either raises or parses it correctly. -/
theorem c4_date_chain (g : GenParse) (raw url : String) (d : DT) :
    parse_news_date g "" url = extract_date_from_url url
    ∧ (raw ≠ "" → parseAll g raw = some d →
        d.hour = 0 → d.minute = 0 → d.second = 0 →
        parse_news_date g raw url
          = fmt4 d.year ++ "-" ++ fmt2 d.month ++ "-" ++ fmt2 d.day)
    ∧ (raw ≠ "" → parseAll g raw = some d →
        ¬(d.hour = 0 ∧ d.minute = 0 ∧ d.second = 0) →
        parse_news_date g raw url
          = fmt4 d.year ++ "-" ++ fmt2 d.month ++ "-" ++ fmt2 d.day ++ " "
            ++ fmt2 d.hour ++ ":" ++ fmt2 d.minute)
    ∧ (raw ≠ "" → parseAll g raw = none →
        parse_news_date g raw url = raw.take 50)
    ∧ ((g "2026-01-28T10:00:00+0000" = none
        ∨ g "2026-01-28T10:00:00+0000" = some ⟨2026, 1, 28, 10, 0, 0⟩) →
        parse_news_date g "2026-01-28T10:00:00+0000" url = "2026-01-28 10:00") := by
  refine ⟨?_, ?_, ?_, ?_, ?_⟩
  · unfold parse_news_date
    rw [if_pos (by decide : (("" : String) == "") = true)]
    by_cases hu : url = ""
    · subst hu
      decide
    · rw [if_neg (by simpa using hu)]
      show (if extract_date_from_url url == "" then "" else extract_date_from_url url)
        = extract_date_from_url url
      by_cases he : (extract_date_from_url url == "") = true
      · rw [if_pos he]
        exact (eq_of_beq he).symm
      · rw [if_neg he]
  · intro hraw hp h1 h2 h3
    unfold parse_news_date
    rw [if_neg (by simpa using hraw), hp]
    show formatDT d = _
    unfold formatDT
    rw [if_pos (by simp [h1, h2, h3])]
  · intro hraw hp hmid
    unfold parse_news_date
    rw [if_neg (by simpa using hraw), hp]
    show formatDT d = _
    unfold formatDT
    rw [if_neg ?_]
    intro hc
    apply hmid
    simpa [and_assoc] using hc
  · intro hraw hp
    unfold parse_news_date
    rw [if_neg (by simpa using hraw), hp]
  · intro hg
    have hp : parseAll g "2026-01-28T10:00:00+0000" = some ⟨2026, 1, 28, 10, 0, 0⟩ := by
      rcases hg with hg | hg
      · unfold parseAll
        rw [hg]
        decide
      · unfold parseAll
        rw [hg]
    unfold parse_news_date
    rw [if_neg (by decide), hp]
    decide

set_option maxRecDepth 8192 in
/-- Witness for C4 amended on the three spec examples plus a date-only
(midnight) raw string. -/
theorem c4_witness :
    parse_news_date (fun _ => none) "" "https://x.com/2026/01/28/foo" = "2026-01-28"
    ∧ parse_news_date (fun _ => none) "2026-01-28T10:00:00+0000" "" = "2026-01-28 10:00"
    ∧ parse_news_date (fun _ => none) "not a date" "" = "not a date"
    ∧ parse_news_date (fun _ => none) "2026-01-28" "" = "2026-01-28" := by
  refine ⟨?_, ?_, ?_, ?_⟩
  · rw [(c4_date_chain (fun _ => none) "x" "https://x.com/2026/01/28/foo"
      ⟨2026, 1, 28, 0, 0, 0⟩).1]
    decide
  · exact (c4_date_chain (fun _ => none) "x" ""
      ⟨2026, 1, 28, 0, 0, 0⟩).2.2.2.2 (Or.inl rfl)
  · rw [(c4_date_chain (fun _ => none) "not a date" ""
      ⟨2026, 1, 28, 0, 0, 0⟩).2.2.2.1 (by decide) (by decide)]
    decide
  · rw [(c4_date_chain (fun _ => none) "2026-01-28" ""
      ⟨2026, 1, 28, 0, 0, 0⟩).2.1 (by decide) (by decide) rfl rfl rfl]
    decide

end Aggregator
